import Mathlib

/-!
Verification of the position-interpretation engine of the bus-tracking
front end (PassengerPage / DriverPage).  The engine's logic layer
(direction inference, next-stop computation, status classification,
ETA, route-polyline fetching, and the socket-event update loop) is
embedded below, translated from the source.

On distances: the source's `calculateDistance` is the haversine
great-circle distance (Earth radius 6371 km) computed with floating
point trigonometry.  Every piece of engine logic consumes distances
only through comparisons and thresholds, so the metric is abstracted
here as a parameter `Dist`.  Concrete evaluations instantiate it with
`lonDist`, the absolute longitude difference: for points on the
equator the haversine distance is a strictly monotone function of
|Δlongitude| (for differences below 180°), so every comparison made by
the code at such points has exactly the same outcome under `lonDist`
as under the source's haversine.  Concrete inputs below therefore read
as stops placed on the equator at the given longitudes.
-/

namespace BusTracking

/-- A latitude/longitude pair (`{latitude, longitude}` in the source). -/
structure Pos where
  lat : ℚ
  lon : ℚ
deriving Repr, DecidableEq, Inhabited

/-- A route stop: MongoDB `_id` (modelled as a natural number) and its
`location`. -/
structure Stop where
  sid : ℕ
  pos : Pos
deriving Repr, DecidableEq, Inhabited

/-- Abstracted distance metric (the source's haversine `calculateDistance`). -/
abbrev Dist := Pos → Pos → ℚ

/-- Concrete metric used for evaluation: |Δlongitude|, computed on the
integer part of the longitudes (every concrete input below has
integer coordinates, so this is exact for them) and built with
`mkRat`/integer subtraction so that it evaluates by kernel
reduction. -/
def lonDist : Dist := fun p q => mkRat (q.lon.num - p.lon.num).natAbs 1

/-- Travel direction along the route (`'forward'` / `'reverse'`). -/
inductive Dir
  | forward
  | reverse
deriving Repr, DecidableEq

/-- Rider-facing status (`'far'` / `'approaching'` / `'passed'`). -/
inductive BusStatus
  | far
  | approaching
  | passed
deriving Repr, DecidableEq

/-- The record built by `calculateNextStop`
(`{ ...stop, index: i, distance }`).  The source stores
`distance.toFixed(2)` for display while comparisons in the search loop
use the raw running minimum; the raw value is kept here (the rounding
is presentational only and no claim reads it). -/
structure NextStopData where
  stop : Stop
  index : ℕ
  distance : ℚ
deriving Repr, DecidableEq

/-- Embeds `routeStops.findIndex(s => s._id === x._id)`, with `none` for `-1`. -/
def findStopIndex (stops : List Stop) (sid : ℕ) : Option ℕ :=
  stops.findIdx? fun s => s.sid == sid

/-- Embeds `detectBusDirection(currentLocation, previousLocation,
routeStops, userStop)` from PassengerPage (lines 135–240).  Returns `none` exactly
on the source's `return null` guard (missing position or fewer than
two stops); otherwise: primary rule on movement relative to the two
termini, then the rider's-middle-stop disambiguation, then the
nearer-terminus fallback. -/
def detectBusDirection (dist : Dist) (curr prev : Option Pos)
    (routeStops : List Stop) (userStop : Option Stop) : Option Dir :=
  match curr, prev, routeStops with
  | some c, some p, s0 :: s1 :: rest =>
      let firstStop := s0
      let lastStop := (s0 :: s1 :: rest).getLastD s0
      let prevDistToFirst := dist p firstStop.pos
      let currDistToFirst := dist c firstStop.pos
      let prevDistToLast := dist p lastStop.pos
      let currDistToLast := dist c lastStop.pos
      if currDistToLast < prevDistToLast ∧ currDistToFirst > prevDistToFirst then
        some .forward
      else if currDistToFirst < prevDistToFirst ∧ currDistToLast > prevDistToLast then
        some .reverse
      else
        let riderResult : Option Dir :=
          match userStop with
          | some us =>
              match findStopIndex (s0 :: s1 :: rest) us.sid with
              | some uIdx =>
                  if 0 < uIdx ∧ uIdx < (s0 :: s1 :: rest).length - 1 then
                    let currDistToUserStop := dist c us.pos
                    let prevDistToUserStop := dist p us.pos
                    if currDistToUserStop < prevDistToUserStop then
                      some (if currDistToFirst < currDistToLast then .forward else .reverse)
                    else if currDistToUserStop > prevDistToUserStop then
                      some (if currDistToLast < currDistToFirst then .forward else .reverse)
                    else none
                  else none
              | none => none
          | none => none
        match riderResult with
        | some d => some d
        | none => some (if currDistToFirst < currDistToLast then .reverse else .forward)
  | _, _, _ => none

/-- Embeds `getDirectedStops(stops, direction)` (lines 243–249): reverse the
route's stop list iff the direction is `'reverse'`. -/
def getDirectedStops (stops : List Stop) (direction : Option Dir) : List Stop :=
  if stops = [] then []
  else if direction = some .reverse then stops.reverse
  else stops

/-- The candidate filter of `calculateNextStop`'s loop (line 271):
`userStopIndex === -1 || i <= userStopIndex`. -/
def allowedIdx (uIdx : Option ℕ) (i : ℕ) : Bool :=
  match uIdx with
  | none => true
  | some u => i ≤ u

/-- The search loop of `calculateNextStop` (lines 261–277).  `uIdx` is
the rider-stop index (`none` for `findIndex === -1`); a candidate at
index `i` is considered only when `uIdx` is `none` or `i ≤ uIdx`, and
it replaces the current best only on a strictly smaller distance (so
the earliest index wins ties).  The source keeps the running minimum
in a separate `minDistance` variable; it always equals the raw
distance stored in the best record, so the accumulator carries only
the record. -/
def calcNextGo (dist : Dist) (b : Pos) (uIdx : Option ℕ) :
    List Stop → ℕ → Option NextStopData → Option NextStopData
  | [], _, best => best
  | st :: rest, i, best =>
      let d := dist b st.pos
      let allowed : Bool := allowedIdx uIdx i
      let better : Bool := match best with
        | none => true
        | some nd => d < nd.distance
      if allowed ∧ better then
        calcNextGo dist b uIdx rest (i + 1) (some ⟨st, i, d⟩)
      else
        calcNextGo dist b uIdx rest (i + 1) best

/-- Embeds `calculateNextStop(bus, userStop, orderedStops)` (lines 252–280). -/
def calculateNextStop (dist : Dist) (busLoc : Option Pos)
    (userStop : Option Stop) (orderedStops : List Stop) : Option NextStopData :=
  match busLoc, orderedStops with
  | none, _ => none
  | _, [] => none
  | some b, stops =>
      let userStopIndex := match userStop with
        | some us => findStopIndex stops us.sid
        | none => none
      calcNextGo dist b userStopIndex stops 0 none

/-- Embeds `determineBusStatus(bus, userStop, nextStopData,
orderedStops)` (lines 283–307). -/
def determineBusStatus (dist : Dist) (busLoc : Option Pos)
    (userStop : Option Stop) (nextStopData : Option NextStopData)
    (orderedStops : List Stop) : BusStatus :=
  match busLoc, userStop, nextStopData with
  | some b, some us, some nd =>
      match findStopIndex orderedStops us.sid with
      | none => .far
      | some userStopIndex =>
          let distanceToUserStop := dist b us.pos
          if nd.index > userStopIndex then .passed
          else if distanceToUserStop ≤ 1 ∧ nd.index ≤ userStopIndex then .approaching
          else .far
  | _, _, _ => .far

/-- JavaScript `Math.round`: round half toward positive infinity. -/
def jsRound (q : ℚ) : ℤ := ⌊q + 1 / 2⌋

/-- Embeds `Number.prototype.toFixed(2)` re-parsed with `parseFloat`, for the
nonnegative distances it is applied to. -/
def toFixed2 (q : ℚ) : ℚ := (jsRound (q * 100) : ℚ) / 100

/-- Embeds `bus.speed || 30`: JavaScript `||` treats a reported speed of `0`
(falsy) the same as an absent one, substituting the 30 km/h default. -/
def jsSpeedOr30 (speed : Option ℚ) : ℚ :=
  match speed with
  | none => 30
  | some s => if s = 0 then 30 else s

/-- Result of `calculateETA` (lines 813–829). -/
inductive ETA
  | calculating
  | stopped
  | arrivingNow
  | minutes (n : ℤ)
deriving Repr, DecidableEq

/-- Embeds `calculateETA(bus)` (lines 813–829): distance is the stored road
`routeDistance` when available, else the straight-line distance
rounded to two decimals; speed is `bus.speed || 30`; below 5 km/h the
`'Bus stopped'` sentinel is returned, else `Math.round(distance /
speed * 60)` minutes with `'Arriving now!'` below one minute (the
source prints `'1 min'` and `'n min'` separately; both are `minutes`). -/
def calculateETA (dist : Dist) (busLoc : Option Pos) (busStop : Option Stop)
    (routeDistance : Option ℚ) (speed : Option ℚ) : ETA :=
  match busLoc, busStop with
  | some b, some stop =>
      let distance := match routeDistance with
        | some rd => rd
        | none => toFixed2 (dist b stop.pos)
      let s := jsSpeedOr30 speed
      if s < 5 then .stopped
      else
        let timeInMinutes := jsRound (distance / s * 60)
        if timeInMinutes < 1 then .arrivingNow
        else .minutes timeInMinutes
  | _, _ => .calculating

/-- A response of the external road-routing collaborator (OSRM):
ordered point sequence and distance in meters. -/
structure RoutedPath where
  points : List Pos
  distanceMeters : ℚ
deriving Repr, DecidableEq

/-- The routing collaborator as an oracle: one routing request carries
an ordered waypoint list (the coordinates placed in the request URL)
and returns a path or a failure (HTTP error, exception, or a non-`Ok`
code — all of which the source treats identically). -/
abbrev Router := List Pos → Option RoutedPath

/-- The waypoint lists of the routing requests that
`fetchCompleteRouteWithRoads(stops)` (lines 333–359) issues: a single
request whose URL joins the coordinates of **all** stops with `;`
(no request is issued for fewer than two stops). -/
def completeRouteRequests (stops : List Stop) : List (List Pos) :=
  if stops.length < 2 then []
  else [stops.map (·.pos)]

/-- The polyline that `fetchCompleteRouteWithRoads(stops)` stores in
`routeCoordinates`: the geometry of the single multi-waypoint response
when it succeeds, else the straight-line sequence of the stops
themselves; `none` when fewer than two stops (early return, nothing
stored). -/
def fetchCompleteRouteWithRoads (router : Router) (stops : List Stop) :
    Option (List Pos) :=
  if stops.length < 2 then none
  else
    match router (stops.map (·.pos)) with
    | some route => some route.points
    | none => some (stops.map (·.pos))

/-- Embeds `fetchRoadRoute(startLat, startLon, endLat, endLon)`
(lines 309–331): the bus-to-rider-stop polyline, one two-waypoint request
with a straight-line fallback for that single pair. -/
def fetchRoadRoute (router : Router) (startP endP : Pos) : List Pos :=
  match router [startP, endP] with
  | some route => route.points
  | none => [startP, endP]

/-- Modelled from the spec (§4.2 `RouteSegmenter.buildRoadPolyline`),
a definition the code is compared against: for each consecutive stop
pair issue one independent shortest-path request and concatenate the
returned point sequences in order; a failed pair degrades to the
straight-line segment between its two stops, independently of the
other pairs. -/
def buildRoadPolylineSpec (router : Router) : List Stop → List Pos
  | [] => []
  | [_] => []
  | a :: b :: rest =>
      (match router [a.pos, b.pos] with
        | some route => route.points
        | none => [a.pos, b.pos]) ++ buildRoadPolylineSpec router (b :: rest)

/-- Modelled from the spec (§4.4 / §3 glossary), a definition the code
is compared against: the next stop is the index of the stop nearest
the vehicle within the not-yet-passed suffix of the ordered list, ties
broken by lowest index; on the first report of a session no stop has
been passed yet, so the suffix is the entire ordered list. -/
def specNearestUpcomingIndex (dist : Dist) (b : Pos) (stops : List Stop) :
    Option ℕ :=
  calcNextGo dist b none stops 0 none |>.map (·.index)

/-- The per-vehicle tracking state held by the passenger page while a
bus is selected.  `busLoc` is `selectedBus.currentLocation`, `prevLoc`
is `previousLocationRef.current`, `direction`/`directionStops`/
`nextStop`/`busStatus` are the corresponding `useState` values.
`closureStatus` is the value of `busStatus` captured by the
`bus:location-update` socket handler's closure: the effect that
registers the handler (lines 361–523) lists `busDirection` and
`directionStops` in its dependency array but **not** `busStatus`
(line 523), so the handler re-binds — refreshing its view of
`busStatus` — only when the direction or the directed stop list
changes; a bare status change leaves the handler comparing against a
stale value. -/
structure TrackState where
  busLoc : Pos
  prevLoc : Option Pos
  direction : Option Dir
  directionStops : List Stop
  nextStop : Option NextStopData
  busStatus : Option BusStatus
  closureStatus : Option BusStatus
deriving Repr, DecidableEq

/-- Observable events of one `bus:location-update` handler run: the
direction-change toast (line 459) and the rider-facing status
notifications (lines 492–496). -/
inductive TrackEvent
  | dirChange (d : Dir)
  | approachingNote
  | passedNote
deriving Repr, DecidableEq

/-- Embeds `const stopsToUse = directionStops.length > 0 ?
directionStops : currentSelectedBus.route?.stops` (line 482). -/
def stopsToUse (routeStops : List Stop) (s : TrackState) : List Stop :=
  if s.directionStops = [] then routeStops else s.directionStops

/-- The rider-facing notifications emitted for a newly set status
(lines 492–496): one event for `'approaching'` or `'passed'`, none
for `'far'`. -/
def statusEvents (st : BusStatus) : List TrackEvent :=
  match st with
  | .approaching => [.approachingNote]
  | .passed => [.passedNote]
  | .far => []

/-- One run of the `bus:location-update` handler for the selected bus
(lines 433–501), with `routeStops` the route's fixed stop list,
`userStop` the rider's stop (`currentBusStop`), and `report` the
reported position.  Mirrors the source's state snapshot semantics: all
reads inside the run see the pre-run state (in particular
`stopsToUse` reads `directionStops` before the direction-change branch
replaces it, and the status comparison reads the possibly stale
`closureStatus`), and the handler's closure is refreshed after the run
only when the direction-change branch fired (the effect's dependency
array, line 523). -/
def locationUpdate (dist : Dist) (routeStops : List Stop)
    (userStop : Option Stop) (report : Pos) (s : TrackState) :
    TrackState × List TrackEvent :=
  let newLocation := report
  -- lines 439–464: direction detection, guarded by a previous position
  let detected : Option Dir :=
    match s.prevLoc with
    | some p => detectBusDirection dist (some newLocation) (some p) routeStops userStop
    | none => none
  let dirChanged : Bool :=
    match detected with
    | some d => s.direction ≠ some d
    | none => false
  let direction₂ := if dirChanged then detected else s.direction
  let directionStops₂ :=
    if dirChanged then getDirectedStops routeStops detected else s.directionStops
  let events₁ : List TrackEvent :=
    match detected with
    | some d => if dirChanged then [.dirChange d] else []
    | none => []
  -- line 467: previousLocationRef.current = newLocation
  -- lines 480–500: next stop, status and notifications, guarded by currentBusStop
  match userStop with
  | some us =>
      let stops := stopsToUse routeStops s
      let nextStopData := calculateNextStop dist (some newLocation) (some us) stops
      let status := determineBusStatus dist (some newLocation) (some us) nextStopData stops
      let statusChanged : Bool := some status ≠ s.closureStatus
      let busStatus₂ := if statusChanged then some status else s.busStatus
      ({ busLoc := newLocation
         prevLoc := some newLocation
         direction := direction₂
         directionStops := directionStops₂
         nextStop := nextStopData
         busStatus := busStatus₂
         closureStatus := if dirChanged then busStatus₂ else s.closureStatus },
       events₁ ++ (if statusChanged then statusEvents status else []))
  | none =>
      ({ busLoc := newLocation
         prevLoc := some newLocation
         direction := direction₂
         directionStops := directionStops₂
         nextStop := s.nextStop
         busStatus := s.busStatus
         closureStatus := if dirChanged then s.busStatus else s.closureStatus },
       events₁)

/-- The initial direction chosen by `trackBus` (lines 706–752): rider
at the first stop ⇒ forward, at the last ⇒ reverse; at a middle stop
compare distances to the rider-stop's route neighbours (closer to the
earlier neighbour ⇒ forward, to the later ⇒ reverse), falling back to
terminus proximity on a tie.  `findIndex` returning `-1` is kept as
the integer `-1`, reproducing the source's clamped neighbour indices
in that case. -/
def initialDirection (dist : Dist) (stops : List Stop) (us : Stop)
    (busLoc : Pos) : Dir :=
  match stops with
  | [] => .forward
  | s0 :: tail =>
      let all := s0 :: tail
      let firstStop := s0
      let lastStop := all.getLastD s0
      let userStopIndex : ℤ := match findStopIndex all us.sid with
        | some i => (i : ℤ)
        | none => -1
      let distToFirst := dist busLoc firstStop.pos
      let distToLast := dist busLoc lastStop.pos
      if userStopIndex = 0 then .forward
      else if userStopIndex = (all.length : ℤ) - 1 then .reverse
      else
        let prevStopIndex := (max 0 (userStopIndex - 1)).toNat
        let nextStopIndex := (min ((all.length : ℤ) - 1) (userStopIndex + 1)).toNat
        let prevStop := all.getD prevStopIndex s0
        let nextStop := all.getD nextStopIndex s0
        let distToPrevStop := dist busLoc prevStop.pos
        let distToNextStop := dist busLoc nextStop.pos
        if distToPrevStop < distToNextStop then .forward
        else if distToNextStop < distToPrevStop then .reverse
        else if distToFirst < distToLast then .reverse else .forward

/-- The state set up by `trackBus(bus)` (lines 664–767): everything is
reset, and when the rider's stop, the route's stops and a current
location are all present the initial direction, the directed stop
list, the next stop and the status are computed; the effect
re-registration triggered by the direction/stop-list updates leaves
the handler closure fresh. -/
def trackBusInit (dist : Dist) (routeStops : List Stop)
    (busStop : Option Stop) (busLoc : Pos) : TrackState :=
  match busStop, routeStops with
  | some us, _ :: _ =>
      let initDir := initialDirection dist routeStops us busLoc
      let ordered := getDirectedStops routeStops (some initDir)
      let nextStopData := calculateNextStop dist (some busLoc) (some us) ordered
      let status := determineBusStatus dist (some busLoc) (some us) nextStopData ordered
      { busLoc := busLoc
        prevLoc := some busLoc
        direction := some initDir
        directionStops := ordered
        nextStop := nextStopData
        busStatus := some status
        closureStatus := some status }
  | _, _ =>
      { busLoc := busLoc
        prevLoc := some busLoc
        direction := none
        directionStops := []
        nextStop := none
        busStatus := none
        closureStatus := none }

/-- The condition under which `detectBusDirection`'s rider-stop
disambiguation block (lines 184–232) decides the direction: the
rider's stop is found at a strictly middle index of the route and the
distance to it strictly changed between the two positions (on an
unchanged distance neither of the block's two branches fires and
control falls through to the terminus-proximity fallback). -/
def riderDisambiguates (dist : Dist) (c p : Pos) (stops : List Stop)
    (userStop : Option Stop) : Bool :=
  match userStop with
  | some us =>
      match findStopIndex stops us.sid with
      | some uIdx =>
          (0 < uIdx ∧ uIdx < stops.length - 1) ∧ dist c us.pos ≠ dist p us.pos
      | none => false
  | none => false

/-- The invariant claimed for the travel-direction stop ordering: the
stored `directionStops` is empty (direction not yet inferred), the
route's stop list, or its exact reverse. -/
def DirectedStopsInv (routeStops : List Stop) (s : TrackState) : Prop :=
  s.directionStops = [] ∨ s.directionStops = routeStops ∨
    s.directionStops = routeStops.reverse

/- Concrete inputs used by witnesses and counterexamples.  Stops sit
on the equator at the indicated longitudes (see the header comment:
under `lonDist` every comparison matches the source's haversine
there).  Longitude degrees at the equator are ≈111 km, so these
figures read as kilometres after scaling; the raw degree values are
kept because only comparisons and the 1-km/5-km thresholds matter and
the inputs are chosen with distances on the relevant side of each
threshold. -/

/-- Route stop `A`, first terminus, longitude 0. -/
def stopA : Stop := ⟨1, ⟨0, 0⟩⟩

/-- Route stop `B`, longitude 10. -/
def stopB : Stop := ⟨2, ⟨0, 10⟩⟩

/-- Route stop `C`, longitude 20. -/
def stopC : Stop := ⟨3, ⟨0, 20⟩⟩

/-- Route stop `D`, last terminus, longitude 30. -/
def stopD : Stop := ⟨4, ⟨0, 30⟩⟩

/-- The sample route `[A, B, C, D]`. -/
def routeABCD : List Stop := [stopA, stopB, stopC, stopD]

/-- An off-axis road point between `A` and `B`, standing for genuine
road geometry returned by the router for that pair. -/
def midAB : Pos := ⟨1, 5⟩

/-- A routing collaborator that answers the `A→B` and `C→D` pair
requests successfully, and fails every other request — in particular
the `B→C` pair and any multi-waypoint request. -/
def routerPairsOnly : Router := fun req =>
  if req = [stopA.pos, stopB.pos] then some ⟨[stopA.pos, midAB, stopB.pos], 11000⟩
  else if req = [stopC.pos, stopD.pos] then some ⟨[stopC.pos, stopD.pos], 10000⟩
  else none

/-- A tracking state for the selected bus at longitude 8, direction
already inferred as forward with the directed list settled, recorded
status `far` and a fresh handler closure. -/
def stateLon8 : TrackState :=
  { busLoc := ⟨0, 8⟩
    prevLoc := some ⟨0, 8⟩
    direction := some .forward
    directionStops := routeABCD
    nextStop := none
    busStatus := some .far
    closureStatus := some .far }

/-- A tracking state for the selected bus at longitude 18, direction
forward, directed list settled, recorded status `far`, fresh closure. -/
def stateLon18 : TrackState :=
  { busLoc := ⟨0, 18⟩
    prevLoc := some ⟨0, 18⟩
    direction := some .forward
    directionStops := routeABCD
    nextStop := none
    busStatus := some .far
    closureStatus := some .far }

/-- A reported position at longitude 9 (between `A` and `B`). -/
def reportLon9 : Pos := ⟨0, 9⟩

/-- A reported position at longitude 19 (one unit before `C`). -/
def reportNearC : Pos := ⟨0, 19⟩

/-- Helper: index 0 always passes the candidate filter. -/
theorem allowedIdx_zero (uIdx : Option ℕ) : allowedIdx uIdx 0 = true := by
  cases uIdx with
  | none => rfl
  | some u => simp [allowedIdx]

/-- Helper: a `some` accumulator never degrades to `none` in the
next-stop search loop. -/
theorem calcNextGo_isSome (dist : Dist) (b : Pos) (uIdx : Option ℕ) :
    ∀ (l : List Stop) (i : ℕ) (nd : NextStopData),
      (calcNextGo dist b uIdx l i (some nd)).isSome = true := by
  intro l
  induction l with
  | nil => intro i nd; rfl
  | cons st rest ih =>
      intro i nd
      simp only [calcNextGo]
      split
      · exact ih (i + 1) _
      · exact ih (i + 1) nd

/-- Helper: the loop finds a stop whenever the list is nonempty and
the starting index passes the filter. -/
theorem calcNextGo_exists (dist : Dist) (b : Pos) (uIdx : Option ℕ)
    (st : Stop) (rest : List Stop) (i : ℕ) (best : Option NextStopData)
    (ha : allowedIdx uIdx i = true) :
    (calcNextGo dist b uIdx (st :: rest) i best).isSome = true := by
  simp only [calcNextGo]
  split
  · exact calcNextGo_isSome dist b uIdx rest (i + 1) _
  · rename_i hguard
    match best with
    | some nd => exact calcNextGo_isSome dist b uIdx rest (i + 1) nd
    | none => exact absurd ⟨ha, rfl⟩ hguard

/-- Helper: every result of the loop is the accumulator or an allowed
candidate from the list, storing its own index, stop and distance. -/
theorem calcNextGo_mem (dist : Dist) (b : Pos) (uIdx : Option ℕ) :
    ∀ (l : List Stop) (i : ℕ) (best : Option NextStopData) (nd : NextStopData),
      calcNextGo dist b uIdx l i best = some nd →
      best = some nd ∨
        ∃ k, k < l.length ∧ nd.index = i + k ∧ nd.stop = l.getD k default ∧
          allowedIdx uIdx (i + k) = true ∧ nd.distance = dist b nd.stop.pos := by
  intro l
  induction l with
  | nil => intro i best nd h; exact Or.inl h
  | cons st rest ih =>
      intro i best nd h
      simp only [calcNextGo] at h
      split at h
      · rename_i hguard
        rcases ih (i + 1) _ nd h with h1 | ⟨k, hk, hidx, hstop, ha, hd⟩
        · cases h1
          exact Or.inr ⟨0, by simp, by simp, by simp, by simpa using hguard.1, rfl⟩
        · refine Or.inr ⟨k + 1, by simpa using hk, by omega, ?_, ?_, hd⟩
          · simpa using hstop
          · have : i + (k + 1) = i + 1 + k := by omega
            rw [this]; exact ha
      · rcases ih (i + 1) best nd h with h1 | ⟨k, hk, hidx, hstop, ha, hd⟩
        · exact Or.inl h1
        · refine Or.inr ⟨k + 1, by simpa using hk, by omega, ?_, ?_, hd⟩
          · simpa using hstop
          · have : i + (k + 1) = i + 1 + k := by omega
            rw [this]; exact ha

/-- Helper: the loop's result is no farther than the accumulator and
than any allowed candidate in the list. -/
theorem calcNextGo_min (dist : Dist) (b : Pos) (uIdx : Option ℕ) :
    ∀ (l : List Stop) (i : ℕ) (best : Option NextStopData) (nd : NextStopData),
      calcNextGo dist b uIdx l i best = some nd →
      (∀ nd₀, best = some nd₀ → nd.distance ≤ nd₀.distance) ∧
      (∀ k, k < l.length → allowedIdx uIdx (i + k) = true →
        nd.distance ≤ dist b ((l.getD k default).pos)) := by
  intro l
  induction l with
  | nil =>
      intro i best nd h
      cases h
      exact ⟨fun nd₀ h₀ => by cases h₀; exact le_refl _, fun k hk => absurd hk (by simp)⟩
  | cons st rest ih =>
      intro i best nd h
      simp only [calcNextGo] at h
      split at h
      · rename_i hguard
        obtain ⟨hacc, hlist⟩ := ih (i + 1) _ nd h
        have hd : nd.distance ≤ dist b st.pos := hacc _ rfl
        refine ⟨?_, ?_⟩
        · intro nd₀ h₀
          have hbetter : dist b st.pos < nd₀.distance := by
            have := hguard.2
            rw [h₀] at this
            simpa using this
          exact le_of_lt (lt_of_le_of_lt hd hbetter)
        · intro k hk ha
          match k with
          | 0 => simpa using hd
          | k' + 1 =>
              have : i + (k' + 1) = i + 1 + k' := by omega
              rw [this] at ha
              simpa using hlist k' (by simpa using hk) ha
      · rename_i hguard
        obtain ⟨hacc, hlist⟩ := ih (i + 1) best nd h
        refine ⟨hacc, ?_⟩
        intro k hk ha
        match k with
        | 0 =>
            -- the head candidate was allowed but not better
            match best, h with
            | some nd₀, h =>
                have hnb : ¬ dist b st.pos < nd₀.distance := by
                  intro hlt
                  exact hguard ⟨by simpa using ha, by simpa using hlt⟩
                have := hacc nd₀ rfl
                simpa using le_trans this (not_lt.mp hnb)
            | none, h =>
                exact absurd ⟨by simpa using ha, rfl⟩ hguard
        | k' + 1 =>
            have : i + (k' + 1) = i + 1 + k' := by omega
            rw [this] at ha
            simpa using hlist k' (by simpa using hk) ha

/-- Helper: the loop strictly improves on an accumulator it replaces —
a result differing in index from a supplied accumulator is strictly
nearer. -/
theorem calcNextGo_strict_acc (dist : Dist) (b : Pos) (uIdx : Option ℕ) :
    ∀ (l : List Stop) (i : ℕ) (nd₀ nd : NextStopData),
      calcNextGo dist b uIdx l i (some nd₀) = some nd →
      nd.index ≠ nd₀.index → nd.distance < nd₀.distance := by
  intro l
  induction l with
  | nil =>
      intro i nd₀ nd h hne
      cases h
      exact absurd rfl hne
  | cons st rest ih =>
      intro i nd₀ nd h hne
      simp only [calcNextGo] at h
      split at h
      · rename_i hguard
        have hbetter : dist b st.pos < nd₀.distance := by simpa using hguard.2
        have hle : nd.distance ≤ dist b st.pos :=
          (calcNextGo_min dist b uIdx rest (i + 1) _ nd h).1 _ rfl
        exact lt_of_le_of_lt hle hbetter
      · exact ih (i + 1) nd₀ nd h hne

/-- Helper: ties go to the earliest index — any allowed candidate
strictly before the chosen index is strictly farther (stated for
accumulators whose index is before the scanned region, as in the
actual call). -/
theorem calcNextGo_first_wins (dist : Dist) (b : Pos) (uIdx : Option ℕ) :
    ∀ (l : List Stop) (i : ℕ) (best : Option NextStopData) (nd : NextStopData),
      calcNextGo dist b uIdx l i best = some nd →
      (∀ nd₀, best = some nd₀ → nd₀.index < i) →
      ∀ k, k < l.length → allowedIdx uIdx (i + k) = true → i + k < nd.index →
        nd.distance < dist b ((l.getD k default).pos) := by
  intro l
  induction l with
  | nil => intro i best nd _ _ k hk; exact absurd hk (by simp)
  | cons st rest ih =>
      intro i best nd h hbefore k hk ha hlt
      simp only [calcNextGo] at h
      split at h
      · rename_i hguard
        match k with
        | 0 =>
            have hne : nd.index ≠ i := by omega
            have := calcNextGo_strict_acc dist b uIdx rest (i + 1) ⟨st, i, dist b st.pos⟩ nd h hne
            simpa using this
        | k' + 1 =>
            have harith : i + (k' + 1) = i + 1 + k' := by omega
            rw [harith] at ha hlt
            have := ih (i + 1) _ nd h (fun nd₀ h₀ => by cases h₀; simp) k'
              (by simpa using hk) ha hlt
            simpa using this
      · rename_i hguard
        match k with
        | 0 =>
            match best, h, hbefore with
            | some nd₀, h, hbefore =>
                have hnb : ¬ dist b st.pos < nd₀.distance := by
                  intro hl
                  exact hguard ⟨by simpa using ha, by simpa using hl⟩
                have hne : nd.index ≠ nd₀.index := by
                  have := hbefore nd₀ rfl
                  omega
                have hstrict := calcNextGo_strict_acc dist b uIdx rest (i + 1) nd₀ nd h hne
                simpa using lt_of_lt_of_le hstrict (not_lt.mp hnb)
            | none, h, _ =>
                exact absurd ⟨by simpa using ha, rfl⟩ hguard
        | k' + 1 =>
            have harith : i + (k' + 1) = i + 1 + k' := by omega
            rw [harith] at ha hlt
            have := ih (i + 1) best nd h (fun nd₀ h₀ => by
              have := hbefore nd₀ h₀; omega) k' (by simpa using hk) ha hlt
            simpa using this

/-- C1 counterexample: on route `[A,B,C,D]` in travel-direction
(forward) order with the rider at `C`, a vehicle reporting 5 beyond
the last stop `D` gets status `far`, not `passed`: the computed
next-stop index is capped at the rider-stop index (here 2), so the
claimed "beyond the last stop ⇒ Passed" behaviour does not occur. -/
theorem c1_counterexample :
    determineBusStatus lonDist (some ⟨0, 35⟩) (some stopC)
        (calculateNextStop lonDist (some ⟨0, 35⟩) (some stopC) routeABCD) routeABCD
      = .far ∧
    (calculateNextStop lonDist (some ⟨0, 35⟩) (some stopC) routeABCD).map (·.index)
      = some 2 ∧
    BusStatus.far ≠ .passed := by
  decide

/-- C1 (amended): with the rider's stop present in the
travel-direction ordering, the classifier returns `passed` exactly
when the supplied next-stop index is strictly greater than the
rider-stop index, `approaching` exactly when it is not beyond it and
the straight-line distance to the rider's stop is at most 1 km, and
`far` in every other case; however, the next-stop index computed by
`calculateNextStop` over the same ordering never exceeds the
rider-stop index, so the composed pipeline never returns `passed` —
in particular a vehicle beyond the last stop is reported `far` (or
`approaching` within 1 km), not `passed`. -/
theorem c1_status_classifier :
    (∀ (dist : Dist) (b : Pos) (us : Stop) (nd : NextStopData)
       (stops : List Stop) (uIdx : ℕ),
       findStopIndex stops us.sid = some uIdx →
       ((determineBusStatus dist (some b) (some us) (some nd) stops = .passed ↔
          uIdx < nd.index) ∧
        (determineBusStatus dist (some b) (some us) (some nd) stops = .approaching ↔
          nd.index ≤ uIdx ∧ dist b us.pos ≤ 1) ∧
        (determineBusStatus dist (some b) (some us) (some nd) stops = .far ↔
          nd.index ≤ uIdx ∧ 1 < dist b us.pos))) ∧
    (∀ (dist : Dist) (b : Pos) (us : Stop) (stops : List Stop),
       determineBusStatus dist (some b) (some us)
         (calculateNextStop dist (some b) (some us) stops) stops ≠ .passed) := by
  constructor
  · intro dist b us nd stops uIdx hfind
    simp only [determineBusStatus, hfind]
    split_ifs with h1 h2
    · refine ⟨by simpa using h1, ?_, ?_⟩
      · simp only [iff_false, reduceCtorEq, false_iff]
        intro hc
        omega
      · simp only [reduceCtorEq, false_iff]
        intro hc
        omega
    · refine ⟨?_, ?_, ?_⟩
      · simp only [reduceCtorEq, false_iff]
        omega
      · simp only [true_iff]
        exact ⟨by omega, h2.1⟩
      · simp only [reduceCtorEq, false_iff]
        intro hc
        exact absurd h2.1 (not_le.mpr hc.2)
    · refine ⟨?_, ?_, ?_⟩
      · simp only [reduceCtorEq, false_iff]
        omega
      · simp only [reduceCtorEq, false_iff]
        intro hc
        exact h2 ⟨hc.2, by omega⟩
      · simp only [true_iff]
        refine ⟨by omega, ?_⟩
        by_contra hc
        exact h2 ⟨not_lt.mp hc, by omega⟩
  · intro dist b us stops
    rcases hopt : calculateNextStop dist (some b) (some us) stops with _ | nd
    · simp [determineBusStatus]
    · rcases hfind : findStopIndex stops us.sid with _ | u
      · simp [determineBusStatus, hfind]
      · have hle : nd.index ≤ u := by
          match stops, hfind with
          | st :: rest, hfind =>
            simp only [calculateNextStop, hfind] at hopt
            rcases calcNextGo_mem dist b (some u) (st :: rest) 0 none nd hopt with
              h1 | ⟨k, _, hidx, _, ha, _⟩
            · exact absurd h1 (by simp)
            · have hku : k ≤ u := by simpa [allowedIdx] using ha
              omega
        simp only [determineBusStatus, hfind]
        split_ifs with h1 h2 <;> (simp; try omega)

/-- C1 witness: concrete instantiations of both parts. -/
theorem c1_witness :
    findStopIndex routeABCD stopC.sid = some 2 ∧
    (determineBusStatus lonDist (some ⟨0, 35⟩) (some stopC)
        (some ⟨stopD, 3, 5⟩) routeABCD = .passed ↔ 2 < 3) ∧
    determineBusStatus lonDist (some ⟨0, 35⟩) (some stopC)
        (calculateNextStop lonDist (some ⟨0, 35⟩) (some stopC) routeABCD) routeABCD
      ≠ .passed :=
  ⟨by decide,
   (c1_status_classifier.1 lonDist ⟨0, 35⟩ stopC ⟨stopD, 3, 5⟩ routeABCD 2 (by decide)).1,
   c1_status_classifier.2 lonDist ⟨0, 35⟩ stopC routeABCD⟩

/-- C2 (amended): on every report the next stop is recomputed as the
stop nearest the vehicle among the stops of the travel-direction
ordering whose index does not exceed the rider-stop index (all stops
when the rider's stop is absent from the ordering) — an initial
segment bounded by the rider's stop, not the not-yet-passed suffix —
with distance ties broken in favour of the lowest index.  A next stop
exists whenever a position and a nonempty ordering are supplied. -/
theorem c2_next_stop_bounded_argmin :
    (∀ (dist : Dist) (b : Pos) (userStop : Option Stop) (stops : List Stop),
       stops ≠ [] → (calculateNextStop dist (some b) userStop stops).isSome = true) ∧
    (∀ (dist : Dist) (b : Pos) (userStop : Option Stop) (stops : List Stop)
       (nd : NextStopData) (uIdx : Option ℕ),
       calculateNextStop dist (some b) userStop stops = some nd →
       (match userStop with
         | some us => findStopIndex stops us.sid
         | none => none) = uIdx →
       allowedIdx uIdx nd.index = true ∧
       nd.index < stops.length ∧
       nd.stop = stops.getD nd.index default ∧
       nd.distance = dist b nd.stop.pos ∧
       (∀ k, k < stops.length → allowedIdx uIdx k = true →
          nd.distance ≤ dist b ((stops.getD k default).pos)) ∧
       (∀ k, k < nd.index → allowedIdx uIdx k = true →
          nd.distance < dist b ((stops.getD k default).pos))) := by
  constructor
  · intro dist b userStop stops hne
    match stops, hne with
    | st :: rest, _ =>
      simp only [calculateNextStop]
      exact calcNextGo_exists dist b _ st rest 0 none (allowedIdx_zero _)
  · intro dist b userStop stops nd uIdx hopt huIdx
    match stops with
    | [] => simp [calculateNextStop] at hopt
    | st :: rest =>
      simp only [calculateNextStop] at hopt
      rw [huIdx] at hopt
      rcases calcNextGo_mem dist b uIdx (st :: rest) 0 none nd hopt with
        h1 | ⟨k, hk, hidx, hstop, ha, hd⟩
      · exact absurd h1 (by simp)
      · have hidx0 : nd.index = k := by omega
        subst hidx0
        refine ⟨by simpa using ha, hk, hstop, hd, ?_, ?_⟩
        · intro j hj haj
          have := (calcNextGo_min dist b uIdx (st :: rest) 0 none nd hopt).2 j hj
            (by simpa using haj)
          simpa using this
        · intro j hj haj
          have := calcNextGo_first_wins dist b uIdx (st :: rest) 0 none nd hopt
            (by intro nd₀ h₀; cases h₀) j (by omega) (by simpa using haj)
            (by simpa using hj)
          simpa using this

/-- C2 witness: concrete instantiations of both parts. -/
theorem c2_witness :
    routeABCD ≠ [] ∧
    (calculateNextStop lonDist (some ⟨0, 29⟩) (some stopB) routeABCD).isSome = true ∧
    allowedIdx (some 1) 1 = true ∧
    (∀ k, k < routeABCD.length → allowedIdx (some 1) k = true →
      (19 : ℚ) ≤ lonDist ⟨0, 29⟩ ((routeABCD.getD k default).pos)) :=
  ⟨by decide,
   c2_next_stop_bounded_argmin.1 lonDist ⟨0, 29⟩ (some stopB) routeABCD (by decide),
   (c2_next_stop_bounded_argmin.2 lonDist ⟨0, 29⟩ (some stopB) routeABCD
      ⟨stopB, 1, 19⟩ (some 1) (by decide) (by decide)).1,
   (c2_next_stop_bounded_argmin.2 lonDist ⟨0, 29⟩ (some stopB) routeABCD
      ⟨stopB, 1, 19⟩ (some 1) (by decide) (by decide)).2.2.2.2.1⟩

/-- C2 counterexample: rider at `B` (index 1), vehicle at longitude 29.
The not-yet-passed suffix at session start is the whole ordered list
and its nearest stop is `D` (index 3, distance 1), yet the code
returns `B` (index 1, distance 19): the loop only considers indices up
to the rider-stop index, an initial segment, not the not-yet-passed
suffix. -/
theorem c2_counterexample :
    (calculateNextStop lonDist (some ⟨0, 29⟩) (some stopB) routeABCD).map (·.index)
      = some 1 ∧
    specNearestUpcomingIndex lonDist ⟨0, 29⟩ routeABCD = some 3 ∧
    lonDist ⟨0, 29⟩ stopD.pos < lonDist ⟨0, 29⟩ stopB.pos := by
  decide

/-- C3: the primary movement rule — strictly closer to the last stop
and strictly farther from the first gives `forward`; strictly closer
to the first and strictly farther from the last gives `reverse` — and,
when neither the primary rule nor the rider-stop disambiguation
decides, the final fallback answers `forward` when the vehicle is
currently strictly nearer the last stop and `reverse` when it is
strictly nearer the first stop. -/
theorem c3_direction_rules :
    ∀ (dist : Dist) (c p : Pos) (s0 s1 : Stop) (rest : List Stop) (us : Option Stop),
      (dist c ((s0 :: s1 :: rest).getLastD s0).pos
          < dist p ((s0 :: s1 :: rest).getLastD s0).pos →
       dist p s0.pos < dist c s0.pos →
       detectBusDirection dist (some c) (some p) (s0 :: s1 :: rest) us
         = some .forward) ∧
      (dist c s0.pos < dist p s0.pos →
       dist p ((s0 :: s1 :: rest).getLastD s0).pos
          < dist c ((s0 :: s1 :: rest).getLastD s0).pos →
       detectBusDirection dist (some c) (some p) (s0 :: s1 :: rest) us
         = some .reverse) ∧
      (¬(dist c ((s0 :: s1 :: rest).getLastD s0).pos
            < dist p ((s0 :: s1 :: rest).getLastD s0).pos ∧
         dist p s0.pos < dist c s0.pos) →
       ¬(dist c s0.pos < dist p s0.pos ∧
         dist p ((s0 :: s1 :: rest).getLastD s0).pos
            < dist c ((s0 :: s1 :: rest).getLastD s0).pos) →
       riderDisambiguates dist c p (s0 :: s1 :: rest) us = false →
       ((dist c ((s0 :: s1 :: rest).getLastD s0).pos < dist c s0.pos →
         detectBusDirection dist (some c) (some p) (s0 :: s1 :: rest) us
           = some .forward) ∧
        (dist c s0.pos < dist c ((s0 :: s1 :: rest).getLastD s0).pos →
         detectBusDirection dist (some c) (some p) (s0 :: s1 :: rest) us
           = some .reverse))) := by
  intro dist c p s0 s1 rest us
  refine ⟨?_, ?_, ?_⟩
  · intro h1 h2
    simp only [detectBusDirection]
    rw [if_pos ⟨h1, h2⟩]
  · intro h1 h2
    simp only [detectBusDirection]
    rw [if_neg (fun hc => absurd hc.1 (not_lt.mpr (le_of_lt h2))),
        if_pos ⟨h1, h2⟩]
  · intro hn1 hn2 hr
    have hnone : detectBusDirection dist (some c) (some p) (s0 :: s1 :: rest) us
        = some (if dist c s0.pos < dist c ((s0 :: s1 :: rest).getLastD s0).pos
                then .reverse else .forward) := by
      simp only [detectBusDirection]
      rw [if_neg hn1, if_neg hn2]
      rcases us with _ | u
      · rfl
      · dsimp only
        rcases hfi : findStopIndex (s0 :: s1 :: rest) u.sid with _ | uIdx
        · rfl
        · dsimp only
          simp only [riderDisambiguates, hfi] at hr
          by_cases hmid : 0 < uIdx ∧ uIdx < (s0 :: s1 :: rest).length - 1
          · rw [if_pos hmid]
            have hequ : dist c u.pos = dist p u.pos := by
              by_contra hne
              simp [hmid.1, hmid.2, hne] at hr
              have := hmid.2
              simp at this
              omega
            rw [hequ, if_neg (lt_irrefl _), if_neg (lt_irrefl _)]
          · rw [if_neg hmid]
    refine ⟨?_, ?_⟩
    · intro hcl
      rw [hnone, if_neg (not_lt.mpr (le_of_lt hcl))]
    · intro hcf
      rw [hnone, if_pos hcf]

/-- C3 witness: concrete instantiations of all three rules. -/
theorem c3_witness :
    detectBusDirection lonDist (some ⟨0, 9⟩) (some ⟨0, 8⟩)
        [stopA, stopB, stopC, stopD] none = some .forward ∧
    detectBusDirection lonDist (some ⟨0, 8⟩) (some ⟨0, 9⟩)
        [stopA, stopB, stopC, stopD] none = some .reverse ∧
    detectBusDirection lonDist (some ⟨0, 9⟩) (some ⟨0, 9⟩)
        [stopA, stopB, stopC, stopD] none = some .reverse :=
  ⟨(c3_direction_rules lonDist ⟨0, 9⟩ ⟨0, 8⟩ stopA stopB [stopC, stopD] none).1
     (by decide) (by decide),
   (c3_direction_rules lonDist ⟨0, 8⟩ ⟨0, 9⟩ stopA stopB [stopC, stopD] none).2.1
     (by decide) (by decide),
   ((c3_direction_rules lonDist ⟨0, 9⟩ ⟨0, 9⟩ stopA stopB [stopC, stopD] none).2.2
     (by decide) (by decide) (by decide)).2 (by decide)⟩

/-- C4 counterexample: a vehicle 10 km from the rider's stop reporting
speed exactly 0 gets the numeric ETA `round(10 / 30 * 60) = 20`
minutes, not the "stopped" sentinel: `bus.speed || 30` replaces the
falsy 0 with the 30 km/h default before the `< 5` check. -/
theorem c4_counterexample :
    calculateETA lonDist (some ⟨0, 35⟩) (some stopC) (some 10) (some 0)
      = .minutes 20 ∧
    ETA.minutes 20 ≠ .stopped := by
  refine ⟨?_, by simp⟩
  show calculateETA lonDist (some ⟨0, 35⟩) (some stopC) (some 10) (some 0)
      = .minutes 20
  simp only [calculateETA, jsSpeedOr30, jsRound]
  norm_num

/-- C4 (amended): the ETA computation returns the "stopped" sentinel
whenever the *effective* speed — the reported speed with an absent
*or zero* value replaced by the 30 km/h default (`bus.speed || 30`) —
is below 5 km/h; a reported speed of exactly 0 therefore yields a
numeric ETA computed at 30 km/h, never the stopped sentinel.
Otherwise the result is `round(distanceKm / effectiveSpeed * 60)`
minutes, reported as the "arriving now" sentinel when the rounded
value is below 1. -/
theorem c4_eta_effective_speed :
    (∀ (dist : Dist) (b : Pos) (stop : Stop) (rd : Option ℚ) (sp : Option ℚ),
       jsSpeedOr30 sp < 5 →
       calculateETA dist (some b) (some stop) rd sp = .stopped) ∧
    (∀ (dist : Dist) (b : Pos) (stop : Stop) (rd : Option ℚ) (sp : Option ℚ),
       5 ≤ jsSpeedOr30 sp →
       calculateETA dist (some b) (some stop) rd sp =
         (if jsRound ((match rd with
             | some d => d
             | none => toFixed2 (dist b stop.pos)) / jsSpeedOr30 sp * 60) < 1
          then .arrivingNow
          else .minutes (jsRound ((match rd with
             | some d => d
             | none => toFixed2 (dist b stop.pos)) / jsSpeedOr30 sp * 60)))) ∧
    (∀ (dist : Dist) (b : Pos) (stop : Stop) (rd : Option ℚ) (sp : Option ℚ),
       sp = some 0 →
       calculateETA dist (some b) (some stop) rd sp ≠ .stopped) := by
  refine ⟨?_, ?_, ?_⟩
  · intro dist b stop rd sp h
    simp only [calculateETA]
    rw [if_pos h]
  · intro dist b stop rd sp h
    simp only [calculateETA]
    rw [if_neg (not_lt.mpr h)]
  · intro dist b stop rd sp hsp
    subst hsp
    have h30 : jsSpeedOr30 (some 0) = 30 := by simp [jsSpeedOr30]
    simp only [calculateETA, h30]
    rw [if_neg (by norm_num)]
    split <;> simp

/-- C4 witness: concrete instantiations of all three parts. -/
theorem c4_witness :
    jsSpeedOr30 (some 3) < 5 ∧
    calculateETA lonDist (some ⟨0, 35⟩) (some stopC) (some 10) (some 3) = .stopped ∧
    calculateETA lonDist (some ⟨0, 35⟩) (some stopC) (some 10) (some 0) ≠ .stopped :=
  ⟨by decide,
   c4_eta_effective_speed.1 lonDist ⟨0, 35⟩ stopC (some 10) (some 3) (by decide),
   c4_eta_effective_speed.2.2 lonDist ⟨0, 35⟩ stopC (some 10) (some 0) rfl⟩

/-- C5 counterexample: for the three-stop list `[A,B,C]` the code
issues exactly one routing request whose waypoint list holds all three
stops, not one two-waypoint request per consecutive pair. -/
theorem c5_counterexample :
    completeRouteRequests [stopA, stopB, stopC]
      = [[stopA.pos, stopB.pos, stopC.pos]] ∧
    completeRouteRequests [stopA, stopB, stopC]
      ≠ [[stopA.pos, stopB.pos], [stopB.pos, stopC.pos]] := by
  decide

/-- C5 (amended): the complete-route polyline is built by a *single*
routing request whose waypoint list is the coordinates of *all* stops
in order (one request, as many waypoints as stops — never one request
per consecutive pair); on success the response geometry becomes the
polyline, and on failure the polyline is the straight-line sequence
of the stops. -/
theorem c5_single_request (router : Router) (stops : List Stop)
    (h : 2 ≤ stops.length) :
    completeRouteRequests stops = [stops.map (·.pos)] ∧
    (∀ req, req ∈ completeRouteRequests stops → req.length = stops.length) ∧
    (∀ r, router (stops.map (·.pos)) = some r →
      fetchCompleteRouteWithRoads router stops = some r.points) ∧
    (router (stops.map (·.pos)) = none →
      fetchCompleteRouteWithRoads router stops = some (stops.map (·.pos))) := by
  have hlt : ¬ stops.length < 2 := not_lt.mpr h
  refine ⟨?_, ?_, ?_, ?_⟩
  · simp [completeRouteRequests, hlt]
  · intro req hreq
    simp [completeRouteRequests, hlt] at hreq
    simp [hreq]
  · intro r hr
    simp [fetchCompleteRouteWithRoads, hlt, hr]
  · intro hr
    simp [fetchCompleteRouteWithRoads, hlt, hr]

/-- C5 witness: concrete instantiation on the four-stop route with the
pairs-only router, whose multi-waypoint request fails. -/
theorem c5_witness :
    2 ≤ routeABCD.length ∧
    completeRouteRequests routeABCD = [routeABCD.map (·.pos)] ∧
    fetchCompleteRouteWithRoads routerPairsOnly routeABCD
      = some (routeABCD.map (·.pos)) :=
  ⟨by decide,
   (c5_single_request routerPairsOnly routeABCD (by decide)).1,
   (c5_single_request routerPairsOnly routeABCD (by decide)).2.2.2 (by decide)⟩

/-- C6 counterexample: with a router that routes the `A→B` and `C→D`
pairs successfully and fails everything else (in particular `B→C` and
the multi-waypoint request), the code's polyline degrades to straight
lines through all four stops — the successfully routable `A→B` road
geometry is not kept — whereas the claimed per-segment policy would
keep it and substitute a straight line only for `B→C`. -/
theorem c6_counterexample :
    (routerPairsOnly [stopA.pos, stopB.pos]).isSome = true ∧
    (routerPairsOnly [stopC.pos, stopD.pos]).isSome = true ∧
    routerPairsOnly [stopB.pos, stopC.pos] = none ∧
    fetchCompleteRouteWithRoads routerPairsOnly routeABCD
      = some [stopA.pos, stopB.pos, stopC.pos, stopD.pos] ∧
    buildRoadPolylineSpec routerPairsOnly routeABCD
      = [stopA.pos, midAB, stopB.pos] ++ [stopB.pos, stopC.pos]
          ++ [stopC.pos, stopD.pos] ∧
    fetchCompleteRouteWithRoads routerPairsOnly routeABCD
      ≠ some (buildRoadPolylineSpec routerPairsOnly routeABCD) := by
  decide

/-- C6 (amended): there is no per-segment fallback in the
complete-route builder — when its single whole-route request fails,
the *entire* polyline degrades to the straight-line sequence of stops,
regardless of which individual pairs the router could serve.  Only the
separate single-pair bus-to-rider-stop fetch falls back pairwise. -/
theorem c6_whole_route_fallback :
    (∀ (router : Router) (stops : List Stop), 2 ≤ stops.length →
       router (stops.map (·.pos)) = none →
       fetchCompleteRouteWithRoads router stops = some (stops.map (·.pos))) ∧
    (∀ (router : Router) (a b : Pos),
       router [a, b] = none → fetchRoadRoute router a b = [a, b]) := by
  constructor
  · intro router stops h hr
    have hlt : ¬ stops.length < 2 := not_lt.mpr h
    simp [fetchCompleteRouteWithRoads, hlt, hr]
  · intro router a b hr
    simp [fetchRoadRoute, hr]

/-- C6 witness: concrete instantiation with the pairs-only router. -/
theorem c6_witness :
    2 ≤ routeABCD.length ∧
    fetchCompleteRouteWithRoads routerPairsOnly routeABCD
      = some (routeABCD.map (·.pos)) ∧
    fetchRoadRoute routerPairsOnly stopB.pos stopC.pos = [stopB.pos, stopC.pos] :=
  ⟨by decide,
   c6_whole_route_fallback.1 routerPairsOnly routeABCD (by decide) (by decide),
   c6_whole_route_fallback.2 routerPairsOnly stopB.pos stopC.pos (by decide)⟩

/-- C7 counterexample: from a settled forward-tracking state at
longitude 8, the report "longitude 9" infers forward (moving toward
the last stop, away from the first); submitting the *same* report
again makes both position deltas zero, so the inference falls through
to the terminus-proximity fallback, which — the vehicle being nearer
the first stop — flips the direction to reverse.  The duplicate
changes the inferred direction. -/
theorem c7_counterexample :
    (locationUpdate lonDist routeABCD (some stopC) reportLon9 stateLon8).1.direction
      = some .forward ∧
    (locationUpdate lonDist routeABCD (some stopC) reportLon9
        (locationUpdate lonDist routeABCD (some stopC) reportLon9 stateLon8).1).1.direction
      = some .reverse := by
  decide

/-- Helper: identical current and previous positions make every
movement delta zero, so direction detection falls through to the
terminus-proximity fallback. -/
theorem detectBusDirection_stationary (dist : Dist) (r : Pos) (s0 s1 : Stop)
    (rest : List Stop) (us : Option Stop) :
    detectBusDirection dist (some r) (some r) (s0 :: s1 :: rest) us
      = some (if dist r s0.pos < dist r ((s0 :: s1 :: rest).getLastD s0).pos
              then .reverse else .forward) := by
  simp only [detectBusDirection]
  rw [if_neg (fun hc => lt_irrefl _ hc.1), if_neg (fun hc => lt_irrefl _ hc.1)]
  rcases us with _ | u
  · rfl
  · dsimp only
    rcases hfi : findStopIndex (s0 :: s1 :: rest) u.sid with _ | uIdx
    · rfl
    · dsimp only
      by_cases hmid : 0 < uIdx ∧ uIdx < (s0 :: s1 :: rest).length - 1
      · rw [if_pos hmid, if_neg (lt_irrefl _), if_neg (lt_irrefl _)]
      · rw [if_neg hmid]

/-- Helper: a handler run always records the reported position as the
previous position for the next run. -/
theorem locationUpdate_prevLoc (dist : Dist) (routeStops : List Stop)
    (us : Option Stop) (r : Pos) (s : TrackState) :
    (locationUpdate dist routeStops us r s).1.prevLoc = some r := by
  rcases us with _ | u <;> rfl

/-- Helper: when a previous position is recorded and detection answers
`d`, the state after the run carries direction `d` (it either changed
to `d` or already was `d`). -/
theorem locationUpdate_direction (dist : Dist) (routeStops : List Stop)
    (us : Option Stop) (r p : Pos) (s : TrackState) (d : Dir)
    (hp : s.prevLoc = some p)
    (hd : detectBusDirection dist (some r) (some p) routeStops us = some d) :
    (locationUpdate dist routeStops us r s).1.direction = some d := by
  rcases us with _ | u <;>
  · simp only [locationUpdate, hp, hd]
    by_cases hc : s.direction = some d
    · simp [hc]
    · simp [hc]

/-- Helper: the next stop stored by a handler run with a rider stop is
the one computed over the pre-run `stopsToUse` snapshot. -/
theorem locationUpdate_nextStop_some (dist : Dist) (routeStops : List Stop)
    (u : Stop) (r : Pos) (s : TrackState) :
    (locationUpdate dist routeStops (some u) r s).1.nextStop
      = calculateNextStop dist (some r) (some u) (stopsToUse routeStops s) := rfl

/-- Helper: without a rider stop the handler leaves the next stop
untouched. -/
theorem locationUpdate_nextStop_none (dist : Dist) (routeStops : List Stop)
    (r : Pos) (s : TrackState) :
    (locationUpdate dist routeStops none r s).1.nextStop = s.nextStop := rfl

/-- C7 (amended): applying the same position report twice leaves the
computed next stop unchanged after the second application whenever the
first application did not change the directed stop list; the inferred
direction after the second application, however, always equals the
terminus-proximity fallback at the reported position (`reverse` iff
strictly nearer the first stop), because a zero movement delta
re-triggers the fallback — so a duplicate can flip a direction that
the first report had inferred from actual movement. -/
theorem c7_duplicate_report (dist : Dist) (routeStops : List Stop)
    (us : Option Stop) (r : Pos) (s : TrackState) (h : 2 ≤ routeStops.length) :
    ((locationUpdate dist routeStops us r s).1.directionStops = s.directionStops →
      (locationUpdate dist routeStops us r
          (locationUpdate dist routeStops us r s).1).1.nextStop
        = (locationUpdate dist routeStops us r s).1.nextStop) ∧
    (locationUpdate dist routeStops us r
        (locationUpdate dist routeStops us r s).1).1.direction
      = some (if dist r (routeStops.headD default).pos
                < dist r (routeStops.getLastD default).pos
              then .reverse else .forward) := by
  match routeStops, h with
  | s0 :: s1 :: rest, _ =>
    constructor
    · intro hds
      rcases us with _ | u
      · rw [locationUpdate_nextStop_none, locationUpdate_nextStop_none]
      · rw [locationUpdate_nextStop_some, locationUpdate_nextStop_some]
        have hsame : stopsToUse (s0 :: s1 :: rest)
            (locationUpdate dist (s0 :: s1 :: rest) (some u) r s).1
            = stopsToUse (s0 :: s1 :: rest) s := by
          simp [stopsToUse, hds]
        rw [hsame]
    · have hprev := locationUpdate_prevLoc dist (s0 :: s1 :: rest) us r s
      have hdet := detectBusDirection_stationary dist r s0 s1 rest us
      have := locationUpdate_direction dist (s0 :: s1 :: rest) us r r
        (locationUpdate dist (s0 :: s1 :: rest) us r s).1 _ hprev hdet
      simpa using this

/-- C7 witness: concrete instantiation at a state the duplicate does
not disturb (bus near `C` moving forward, fallback also forward). -/
theorem c7_witness :
    2 ≤ routeABCD.length ∧
    (locationUpdate lonDist routeABCD (some stopC) reportNearC stateLon18).1.directionStops
      = stateLon18.directionStops ∧
    (locationUpdate lonDist routeABCD (some stopC) reportNearC
        (locationUpdate lonDist routeABCD (some stopC) reportNearC stateLon18).1).1.nextStop
      = (locationUpdate lonDist routeABCD (some stopC) reportNearC stateLon18).1.nextStop ∧
    (locationUpdate lonDist routeABCD (some stopC) reportNearC
        (locationUpdate lonDist routeABCD (some stopC) reportNearC stateLon18).1).1.direction
      = some (if lonDist reportNearC (routeABCD.headD default).pos
                < lonDist reportNearC (routeABCD.getLastD default).pos
              then .reverse else .forward) :=
  ⟨by decide, by decide,
   (c7_duplicate_report lonDist routeABCD (some stopC) reportNearC stateLon18
      (by decide)).1 (by decide),
   (c7_duplicate_report lonDist routeABCD (some stopC) reportNearC stateLon18
      (by decide)).2⟩

/-- Helper: `getDirectedStops` returns the given list or its exact
reverse — never anything else. -/
theorem getDirectedStops_eq_or_reverse (stops : List Stop) (d : Option Dir) :
    getDirectedStops stops d = stops ∨ getDirectedStops stops d = stops.reverse := by
  by_cases h0 : stops = []
  · subst h0; exact Or.inl rfl
  · by_cases hrev : d = some .reverse
    · right; simp [getDirectedStops, h0, hrev]
    · left; simp [getDirectedStops, h0, hrev]

/-- Helper: a handler run either keeps the directed stop list or
replaces it with `getDirectedStops` of the route. -/
theorem locationUpdate_directionStops (dist : Dist) (routeStops : List Stop)
    (us : Option Stop) (r : Pos) (s : TrackState) :
    (locationUpdate dist routeStops us r s).1.directionStops = s.directionStops ∨
    ∃ d, (locationUpdate dist routeStops us r s).1.directionStops
        = getDirectedStops routeStops d := by
  rcases us with _ | u
  · simp only [locationUpdate]
    split
    · exact Or.inr ⟨_, rfl⟩
    · exact Or.inl rfl
  · simp only [locationUpdate]
    split
    · exact Or.inr ⟨_, rfl⟩
    · exact Or.inl rfl

/-- C8: the travel-direction stop ordering is always the route's stop
list or its exact reverse: `getDirectedStops` only ever returns one of
the two; every handler run preserves the invariant (empty before a
direction is known, else list or reverse) and the ordering actually
used for next-stop/status computation is always exactly the list or
its reverse; and the state set up by `trackBus` satisfies the
invariant. -/
theorem c8_ordering_invariant :
    (∀ (stops : List Stop) (d : Option Dir),
       getDirectedStops stops d = stops ∨ getDirectedStops stops d = stops.reverse) ∧
    (∀ (dist : Dist) (routeStops : List Stop) (us : Option Stop) (r : Pos)
       (s : TrackState),
       DirectedStopsInv routeStops s →
       DirectedStopsInv routeStops (locationUpdate dist routeStops us r s).1 ∧
       (stopsToUse routeStops s = routeStops ∨
         stopsToUse routeStops s = routeStops.reverse)) ∧
    (∀ (dist : Dist) (routeStops : List Stop) (busStop : Option Stop) (b : Pos),
       DirectedStopsInv routeStops (trackBusInit dist routeStops busStop b)) := by
  refine ⟨getDirectedStops_eq_or_reverse, ?_, ?_⟩
  · intro dist routeStops us r s hInv
    constructor
    · rcases locationUpdate_directionStops dist routeStops us r s with h | ⟨d, h⟩
      · unfold DirectedStopsInv at hInv ⊢
        rw [h]; exact hInv
      · unfold DirectedStopsInv
        rw [h]
        rcases getDirectedStops_eq_or_reverse routeStops d with h1 | h1
        · exact Or.inr (Or.inl h1)
        · exact Or.inr (Or.inr h1)
    · unfold stopsToUse
      by_cases h0 : s.directionStops = []
      · rw [if_pos h0]; exact Or.inl rfl
      · rw [if_neg h0]
        rcases hInv with h | h | h
        · exact absurd h h0
        · exact Or.inl h
        · exact Or.inr h
  · intro dist routeStops busStop b
    rcases busStop with _ | u
    · rcases routeStops with _ | ⟨s0, tail⟩ <;> exact Or.inl rfl
    · rcases routeStops with _ | ⟨s0, tail⟩
      · exact Or.inl rfl
      · unfold DirectedStopsInv
        have hds : (trackBusInit dist (s0 :: tail) (some u) b).directionStops
            = getDirectedStops (s0 :: tail)
                (some (initialDirection dist (s0 :: tail) u b)) := rfl
        rw [hds]
        rcases getDirectedStops_eq_or_reverse (s0 :: tail)
            (some (initialDirection dist (s0 :: tail) u b)) with h1 | h1
        · exact Or.inr (Or.inl h1)
        · exact Or.inr (Or.inr h1)

/-- C8 witness: concrete instantiations of all three parts. -/
theorem c8_witness :
    (getDirectedStops routeABCD (some .reverse) = routeABCD ∨
      getDirectedStops routeABCD (some .reverse) = routeABCD.reverse) ∧
    DirectedStopsInv routeABCD stateLon18 ∧
    DirectedStopsInv routeABCD
      (locationUpdate lonDist routeABCD (some stopC) reportNearC stateLon18).1 ∧
    (stopsToUse routeABCD stateLon18 = routeABCD ∨
      stopsToUse routeABCD stateLon18 = routeABCD.reverse) ∧
    DirectedStopsInv routeABCD (trackBusInit lonDist routeABCD (some stopC) ⟨0, 19⟩) :=
  ⟨c8_ordering_invariant.1 routeABCD (some .reverse),
   Or.inr (Or.inl rfl),
   (c8_ordering_invariant.2.1 lonDist routeABCD (some stopC) reportNearC stateLon18
      (Or.inr (Or.inl rfl))).1,
   (c8_ordering_invariant.2.1 lonDist routeABCD (some stopC) reportNearC stateLon18
      (Or.inr (Or.inl rfl))).2,
   c8_ordering_invariant.2.2 lonDist routeABCD (some stopC) ⟨0, 19⟩⟩

/-- C9: evaluation of the code at the failing input.  Rider at `C`,
tracked bus previously at longitude 18 with recorded status `far`;
the report "longitude 19.5" is submitted twice.  Both runs emit the
`approaching` notification: the first sets `busStatus` to
`approaching`, but the handler closure still compares against the
stale `far` (the registering effect's dependency array, line 523,
omits `busStatus` and nothing else changed), so the identical second
status is treated as a change again. -/
theorem c9_duplicate_notification :
    (locationUpdate lonDist routeABCD (some stopC) reportNearC stateLon18).2
      = [.approachingNote] ∧
    (locationUpdate lonDist routeABCD (some stopC) reportNearC stateLon18).1.busStatus
      = some .approaching ∧
    (locationUpdate lonDist routeABCD (some stopC) reportNearC
        (locationUpdate lonDist routeABCD (some stopC) reportNearC stateLon18).1).2
      = [.approachingNote] := by
  decide

/-- C10: whenever a current position, a previous position and a route
with at least two stops are all supplied, `detectBusDirection` returns
a definite direction — every fall-through path ends in the
terminus-proximity fallback, which always answers. -/
theorem c10_direction_always_decided (dist : Dist) (c p : Pos)
    (stops : List Stop) (us : Option Stop) (h : 2 ≤ stops.length) :
    (detectBusDirection dist (some c) (some p) stops us).isSome = true := by
  match stops, h with
  | s0 :: s1 :: rest, _ =>
    simp only [detectBusDirection]
    split
    · rfl
    · split
      · rfl
      · split <;> rfl

/-- C10 witness: concrete instantiation. -/
theorem c10_witness :
    2 ≤ routeABCD.length ∧
    (detectBusDirection lonDist (some ⟨0, 9⟩) (some ⟨0, 8⟩) routeABCD
        (some stopC)).isSome = true :=
  ⟨by decide,
   c10_direction_always_decided lonDist ⟨0, 9⟩ ⟨0, 8⟩ routeABCD (some stopC) (by decide)⟩

end BusTracking
